import Mathlib

set_option autoImplicit false
set_option linter.unusedVariables false

namespace BitmovinConfig

/-- Python strings are modelled as lists of characters. -/
abbrev Str := List Char

/-- The single-quote character used in the generic error description. -/
def squote : Char := '\x27'

/-- Modelled from the spec: `common/bitmovin_argument.py` is not among the
sources; the spec describes the ParameterSpec record as
`{ externalName: string, description: string, required: bool }`. -/
structure BitmovinArgument where
  argument_name : Str
  description : Str
  is_required : Bool
deriving DecidableEq

/-- The static registry `ConfigProvider._properties`: logical key to
`BitmovinArgument(argument_name, description, required)`. -/
def _properties : List (Str × BitmovinArgument) := [
  ("BITMOVIN_API_KEY".data,
    ⟨"bitmovin-api-key".data, "Your API key for the Bitmovin API.".data, true⟩),
  ("HTTP_INPUT_HOST".data,
    ⟨"http-input-host".data,
      "Hostname or IP address of the HTTP server hosting your input files, e.g.: my-storage.biz".data,
      false⟩),
  ("HTTP_INPUT_FILE_PATH".data,
    ⟨"http-input-file-path".data,
      "The path to your Http input file. Example: videos/1080p_Sintel.mp4".data, false⟩),
  ("S3_OUTPUT_BUCKET_NAME".data,
    ⟨"s3-output-bucket-name".data,
      "The name of your S3 output bucket. Example: my-bucket-name".data, false⟩),
  ("S3_OUTPUT_ACCESS_KEY".data,
    ⟨"s3-output-access-key".data, "The access key of your S3 output bucket.".data, false⟩),
  ("S3_OUTPUT_SECRET_KEY".data,
    ⟨"s3-output-secret-key".data, "The secret key of your S3 output bucket.".data, false⟩),
  ("S3_OUTPUT_BASE_PATH".data,
    ⟨"s3-output-base-path".data,
      "The base path on your S3 output bucket. Example: /outputs".data, false⟩),
  ("WATERMARK_IMAGE_PATH".data,
    ⟨"watermark-image-path".data,
      "The path to the watermark image. Example: http://my-storage.biz/logo.png".data, false⟩),
  ("TEXT_FILTER_TEXT".data,
    ⟨"text-filter-text".data, "The text to be displayed by the text filter.".data, false⟩),
  ("DRM_KEY".data,
    ⟨"drm-key".data,
      "16 byte encryption key, represented as 32 hexadecimal characters Example: cab5b529ae28d5cc5e3e7bc3fd4a544d".data,
      false⟩),
  ("DRM_FAIRPLAY_IV".data,
    ⟨"drm-fairplay-ic".data,
      "16 byte initialization vector, represented as 32 hexadecimal characters Example: 08eecef4b026deec395234d94218273d".data,
      false⟩),
  ("DRM_FAIRPLAY_URI".data,
    ⟨"drm-fairplay-uri".data,
      "URI of the licensing server Example: skd://userspecifc?custom=information".data, false⟩),
  ("DRM_WIDEVINE_KID".data,
    ⟨"drm-widevine-kid".data,
      "16 byte encryption key id, represented as 32 hexadecimal characters Example: 08eecef4b026deec395234d94218273d".data,
      false⟩),
  ("DRM_WIDEVINE_PSSH".data,
    ⟨"drm-widevine-pssh".data,
      "Base64 encoded PSSH payload Example: QWRvYmVhc2Rmc2FkZmFzZg==".data, false⟩)]

/-- The comprehension `_get_dict_with_set_values` applied to a dict of string
values: keep the pairs whose value is truthy, i.e. a non-empty string. -/
def get_dict_with_set_values (dictionary : List (Str × Str)) : List (Str × Str) :=
  dictionary.filter (fun kv => !kv.2.isEmpty)

/-- The dict `vars(options)` produced by optparse: every registered key is
mapped to `None` (flag absent) or to the supplied string. -/
abbrev OptionsDict := List (Str × Option Str)

/-- The comprehension `_get_dict_with_set_values` applied to `vars(options)`:
truthiness drops both `None` entries and empty strings. -/
def get_dict_with_set_values_of_options (dictionary : OptionsDict) : List (Str × Str) :=
  dictionary.filterMap (fun kv =>
    match kv.2 with
    | none => none
    | some v => if v.isEmpty then none else some (kv.1, v))

/-- The body of `_parse_cli_arguments`: with a one-element `argv` it
short-circuits to the empty dict; otherwise it filters the optparse result,
which is modelled by the `options` parameter. -/
def parse_cli_arguments (argv : List Str) (options : OptionsDict) : List (Str × Str) :=
  if argv.length = 1 then [] else get_dict_with_set_values_of_options options

/-- Outcome of opening and reading a file at a path. -/
inductive FileReadResult where
  | notFound
  | readError (cause : Str)
  | content (text : Str)
deriving DecidableEq

/-- The file system seen through `open(...).read()`. -/
abbrev FileSystem := Str → FileReadResult

/-- The external INI parser (`configparser.read_string` followed by
`items(section_name)`): a parse failure or a list of key/value items. -/
abbrev IniParser := Str → Except Str (List (Str × Str))

/-- Errors raised by the module: `MissingArgumentError(argument, description)`
and the `RuntimeError(message, cause)` wrapping a properties-file failure. -/
inductive PError where
  | missingArgument (argument : Str) (description : Str)
  | runtimeError (message : Str) (cause : Str)
deriving DecidableEq

/-- POSIX `os.path.join` on two components. -/
def path_join (a b : Str) : Str := a ++ "/".data ++ b

/-- The synthetic section name added before parsing a properties file. -/
def section_name : Str := "section".data

/-- The body of `_parse_properties_file`: read `examples.properties` in the
given directory, prepend a synthetic section header, parse, and filter empty
values. A missing file yields the empty dict; any other read or parse failure
raises `RuntimeError` naming the file path and carrying the original cause. -/
def parse_properties_file (fs : FileSystem) (ini : IniParser)
    (properties_file_directory : Str) : Except PError (List (Str × Str)) :=
  match fs (path_join properties_file_directory "examples.properties".data) with
  | .notFound => .ok []
  | .readError cause =>
      .error (.runtimeError ("Error reading properties file: ".data ++
        path_join properties_file_directory "examples.properties".data) cause)
  | .content text =>
      match ini ("[".data ++ section_name ++ "]".data ++ "\n".data ++ text) with
      | .error cause =>
          .error (.runtimeError ("Error reading properties file: ".data ++
            path_join properties_file_directory "examples.properties".data) cause)
      | .ok items => .ok (get_dict_with_set_values items)

/-- The state of a constructed `ConfigProvider`: its ordered `configuration`
dict of source name to resolved mapping. -/
structure ConfigProvider where
  configuration : List (Str × List (Str × Str))
deriving DecidableEq

/-- The body of `ConfigProvider.__init__`: eagerly build the four sources in
order. A properties-file failure propagates out of construction
(`parse_cli_arguments` is total here, so sequencing it with the two fallible
properties parses is immaterial). The environment is captured by value,
modelling `environ.copy()`; note that it is stored unfiltered. -/
def ConfigProvider.init (argv : List Str) (options : OptionsDict) (fs : FileSystem)
    (ini : IniParser) (env : List (Str × Str)) (home : Str) : Except PError ConfigProvider :=
  match parse_properties_file fs ini ".".data with
  | .error e => .error e
  | .ok localProperties =>
      match parse_properties_file fs ini (path_join home ".bitmovin".data) with
      | .error e => .error e
      | .ok homeProperties =>
          .ok ⟨[("Command line arguments".data, parse_cli_arguments argv options),
                ("Local properties file".data, localProperties),
                ("Environment variables".data, env),
                ("System-wide properties file".data, homeProperties)]⟩

/-- The loop of `_get_or_throw_exception`: scan the configuration dict in
insertion order and return the first sub-config value stored for the key. -/
def lookup_sources (configuration : List (Str × List (Str × Str))) (key : Str) : Option Str :=
  match configuration with
  | [] => none
  | sc :: rest =>
      match sc.2.lookup key with
      | some value => some value
      | none => lookup_sources rest key

/-- The body of `_get_or_throw_exception`: the first source containing the key
wins; on a miss, raise `MissingArgumentError` with the registry description
when the key is known, and a generic description naming the key otherwise. -/
def get_or_throw_exception (cp : ConfigProvider) (key : Str) : Except PError Str :=
  match lookup_sources cp.configuration key with
  | some value => .ok value
  | none =>
      match _properties.lookup key with
      | some arg => .error (.missingArgument key arg.description)
      | none =>
          .error (.missingArgument key
            ("Configuration Parameter ".data ++ [squote] ++ key ++ [squote]))

/-- Python `s.startswith(p)`. -/
def startswith (s p : Str) : Bool := p.isPrefixOf s

/-- Python `s.endswith(p)`. -/
def endswith (s p : Str) : Bool := p.isSuffixOf s

/-- The body of `get_s3_output_base_path`: look the key up, strip a single
leading slash, then guarantee one trailing slash. -/
def get_s3_output_base_path (cp : ConfigProvider) : Except PError Str :=
  match get_or_throw_exception cp "S3_OUTPUT_BASE_PATH".data with
  | .error e => .error e
  | .ok s3_output_base_path =>
      let s3_output_base_path :=
        if startswith s3_output_base_path "/".data then s3_output_base_path.drop 1
        else s3_output_base_path
      let s3_output_base_path :=
        if !endswith s3_output_base_path "/".data then s3_output_base_path ++ "/".data
        else s3_output_base_path
      .ok s3_output_base_path

/-- The first reassignment inside `get_s3_output_base_path` (source lines
84-85): `s[1:]` when the value starts with a slash. -/
def strip_single_leading_slash (v : Str) : Str :=
  if startswith v "/".data then v.drop 1 else v

/-- The second reassignment inside `get_s3_output_base_path` (source lines
87-88): append a slash when the value does not end with one. -/
def append_trailing_slash (v : Str) : Str :=
  if !endswith v "/".data then v ++ "/".data else v

/-- The normalization performed inside `get_s3_output_base_path` after the
lookup: the two reassignments of source lines 84-88 in sequence. -/
def normalize_s3_output_base_path (v : Str) : Str :=
  append_trailing_slash (strip_single_leading_slash v)

/-! Helper lemmas shared by several claim theorems. -/

theorem lookup_sources_append_none (pre rest : List (Str × List (Str × Str))) (key : Str)
    (hpre : ∀ t ∈ pre, t.2.lookup key = none) :
    lookup_sources (pre ++ rest) key = lookup_sources rest key := by
  induction pre with
  | nil => rfl
  | cons hd tl ih =>
      have hhd : hd.2.lookup key = none := hpre hd (by simp)
      have htl : ∀ t ∈ tl, t.2.lookup key = none := fun t ht => hpre t (by simp [ht])
      simp [lookup_sources, hhd, ih htl]

theorem lookup_sources_eq_none (conf : List (Str × List (Str × Str))) (key : Str)
    (h : ∀ t ∈ conf, t.2.lookup key = none) : lookup_sources conf key = none := by
  induction conf with
  | nil => rfl
  | cons hd tl ih =>
      have hhd : hd.2.lookup key = none := h hd (by simp)
      have htl : ∀ t ∈ tl, t.2.lookup key = none := fun t ht => h t (by simp [ht])
      simp [lookup_sources, hhd, ih htl]

/-- C1: on a constructed provider, when a key is stored in two or more of the
four sources, the lookup returns the value of the highest-priority source
containing it, whatever the lower-priority sources hold. -/
theorem c1_highest_priority_wins (argv : List Str) (options : OptionsDict) (fs : FileSystem)
    (ini : IniParser) (env : List (Str × Str)) (home : Str) (cp : ConfigProvider) (key v : Str)
    (pre post : List (Str × List (Str × Str))) (s : Str × List (Str × Str))
    (hinit : ConfigProvider.init argv options fs ini env home = .ok cp)
    (hconf : cp.configuration = pre ++ s :: post)
    (hpre : ∀ t ∈ pre, t.2.lookup key = none)
    (hs : s.2.lookup key = some v)
    (hmulti : 2 ≤ (cp.configuration.countP (fun t => (t.2.lookup key).isSome))) :
    get_or_throw_exception cp key = .ok v := by
  unfold get_or_throw_exception
  rw [hconf, lookup_sources_append_none pre (s :: post) key hpre]
  simp [lookup_sources, hs]

theorem c1_witness :
    get_or_throw_exception
      ⟨[("Command line arguments".data, [("K".data, "cli".data)]),
        ("Local properties file".data, []),
        ("Environment variables".data, [("K".data, "envv".data)]),
        ("System-wide properties file".data, [])]⟩ "K".data = .ok "cli".data :=
  c1_highest_priority_wins ["prog".data, "--x".data] [("K".data, some "cli".data)]
    (fun _ => .notFound) (fun _ => .ok []) [("K".data, "envv".data)] "/root".data
    ⟨[("Command line arguments".data, [("K".data, "cli".data)]),
      ("Local properties file".data, []),
      ("Environment variables".data, [("K".data, "envv".data)]),
      ("System-wide properties file".data, [])]⟩ "K".data "cli".data
    [] [("Local properties file".data, []),
        ("Environment variables".data, [("K".data, "envv".data)]),
        ("System-wide properties file".data, [])]
    ("Command line arguments".data, [("K".data, "cli".data)])
    rfl rfl (by simp) rfl (by decide)

/-- C4 amended: when no stored source contains the key at all, the lookup
fails with `MissingArgumentError` carrying the key and a description: the
registry description when the key is known, and a generic description naming
the key otherwise; no default value is returned. (For the filtered sources
"contains the key" coincides with "contains it with a non-empty value"; the
unfiltered environment snapshot is the exception, see the counterexample.) -/
theorem c4_missing_key_error (cp : ConfigProvider) (key : Str)
    (h : ∀ source ∈ cp.configuration, source.2.lookup key = none) :
    get_or_throw_exception cp key =
      .error (.missingArgument key
        (match _properties.lookup key with
         | some arg => arg.description
         | none => "Configuration Parameter ".data ++ [squote] ++ key ++ [squote])) := by
  unfold get_or_throw_exception
  rw [lookup_sources_eq_none cp.configuration key h]
  cases hreg : _properties.lookup key <;> simp [hreg]

theorem c4_witness :
    get_or_throw_exception
      ⟨[("Command line arguments".data, []), ("Local properties file".data, []),
        ("Environment variables".data, []), ("System-wide properties file".data, [])]⟩
      "DRM_KEY".data =
      .error (.missingArgument "DRM_KEY".data
        "16 byte encryption key, represented as 32 hexadecimal characters Example: cab5b529ae28d5cc5e3e7bc3fd4a544d".data) :=
  c4_missing_key_error
    ⟨[("Command line arguments".data, []), ("Local properties file".data, []),
      ("Environment variables".data, []), ("System-wide properties file".data, [])]⟩
    "DRM_KEY".data (by decide)

/-- C4: refuted — with the environment snapshot holding DRM_KEY mapped to the
empty string and no other source holding the key, no source contains the key
with a non-empty value, yet the lookup returns the empty string instead of
raising `MissingArgumentError`. -/
theorem c4_counterexample :
    ∃ cp, ConfigProvider.init [[]] [] (fun _ => .notFound) (fun _ => .ok [])
        [("DRM_KEY".data, [])] "/home/u".data = .ok cp ∧
      (∀ source ∈ cp.configuration, ∀ v, source.2.lookup "DRM_KEY".data = some v → v = []) ∧
      get_or_throw_exception cp "DRM_KEY".data = .ok [] := by
  refine ⟨⟨[("Command line arguments".data, []), ("Local properties file".data, []),
    ("Environment variables".data, [("DRM_KEY".data, [])]),
    ("System-wide properties file".data, [])]⟩, rfl, by decide, rfl⟩

/-- C7: a properties file that does not exist yields the empty mapping for
that source and raises no error. -/
theorem c7_missing_file_is_empty (fs : FileSystem) (ini : IniParser) (dir : Str)
    (h : fs (path_join dir "examples.properties".data) = .notFound) :
    parse_properties_file fs ini dir = .ok [] := by
  simp [parse_properties_file, h]

theorem c7_witness :
    parse_properties_file (fun _ => .notFound) (fun _ => .ok []) ".".data = .ok [] :=
  c7_missing_file_is_empty (fun _ => .notFound) (fun _ => .ok []) ".".data rfl

/-- C8: a properties file that exists but cannot be read, or cannot be parsed,
yields for an arbitrary base directory a `RuntimeError` carrying the offending
file path and the original cause, and such a failure aborts construction: a
failure of the current-working-directory file propagates out of `__init__`
directly, and a failure of the home-directory file propagates whenever the
local file itself parsed; in no case is the failure recovered internally. -/
theorem c8_read_failure_is_fatal (argv : List Str) (options : OptionsDict) (fs : FileSystem)
    (ini : IniParser) (env : List (Str × Str)) (home : Str) :
    (∀ dir cause, fs (path_join dir "examples.properties".data) = .readError cause →
        parse_properties_file fs ini dir =
          .error (.runtimeError ("Error reading properties file: ".data ++
            path_join dir "examples.properties".data) cause))
  ∧ (∀ dir text cause, fs (path_join dir "examples.properties".data) = .content text →
        ini ("[".data ++ section_name ++ "]".data ++ "\n".data ++ text) = .error cause →
        parse_properties_file fs ini dir =
          .error (.runtimeError ("Error reading properties file: ".data ++
            path_join dir "examples.properties".data) cause))
  ∧ (∀ e, parse_properties_file fs ini ".".data = .error e →
        ConfigProvider.init argv options fs ini env home = .error e)
  ∧ (∀ lp e, parse_properties_file fs ini ".".data = .ok lp →
        parse_properties_file fs ini (path_join home ".bitmovin".data) = .error e →
        ConfigProvider.init argv options fs ini env home = .error e) := by
  refine ⟨?_, ?_, ?_, ?_⟩
  · intro dir cause h
    unfold parse_properties_file
    rw [h]
  · intro dir text cause h1 h2
    simp only [List.append_assoc, List.cons_append, List.nil_append] at h2
    simp [parse_properties_file, h1, h2]
  · intro e h
    unfold ConfigProvider.init
    rw [h]
  · intro lp e h1 h2
    unfold ConfigProvider.init
    rw [h1, h2]

theorem c8_witness :
    ConfigProvider.init [[]] []
      (fun p => if p = path_join (path_join "/home/u".data ".bitmovin".data)
          "examples.properties".data then .readError "denied".data else .notFound)
      (fun _ => .ok []) [] "/home/u".data =
      .error (.runtimeError ("Error reading properties file: ".data ++
        path_join (path_join "/home/u".data ".bitmovin".data) "examples.properties".data)
        "denied".data) :=
  (c8_read_failure_is_fatal [[]] []
    (fun p => if p = path_join (path_join "/home/u".data ".bitmovin".data)
        "examples.properties".data then .readError "denied".data else .notFound)
    (fun _ => .ok []) [] "/home/u".data).2.2.2 []
    (.runtimeError ("Error reading properties file: ".data ++
      path_join (path_join "/home/u".data ".bitmovin".data) "examples.properties".data)
      "denied".data) rfl rfl

theorem init_configuration (argv : List Str) (options : OptionsDict) (fs : FileSystem)
    (ini : IniParser) (env : List (Str × Str)) (home : Str) (cp : ConfigProvider)
    (hinit : ConfigProvider.init argv options fs ini env home = .ok cp) :
    ∃ lp hp, parse_properties_file fs ini ".".data = .ok lp ∧
      parse_properties_file fs ini (path_join home ".bitmovin".data) = .ok hp ∧
      cp.configuration =
        [("Command line arguments".data, parse_cli_arguments argv options),
         ("Local properties file".data, lp),
         ("Environment variables".data, env),
         ("System-wide properties file".data, hp)] := by
  unfold ConfigProvider.init at hinit
  cases h1 : parse_properties_file fs ini ".".data with
  | error e => rw [h1] at hinit; exact absurd hinit (by simp)
  | ok lp =>
      rw [h1] at hinit
      cases h2 : parse_properties_file fs ini (path_join home ".bitmovin".data) with
      | error e => rw [h2] at hinit; exact absurd hinit (by simp)
      | ok hp =>
          rw [h2] at hinit
          refine ⟨lp, hp, rfl, rfl, ?_⟩
          injection hinit with h
          rw [← h]

theorem mem_get_dict_with_set_values (d : List (Str × Str)) (kv : Str × Str)
    (h : kv ∈ get_dict_with_set_values d) : kv.2 ≠ [] := by
  unfold get_dict_with_set_values at h
  have hv := (List.mem_filter.mp h).2
  intro hnil
  rw [hnil] at hv
  simp at hv

theorem mem_parse_cli_arguments (argv : List Str) (options : OptionsDict) (kv : Str × Str)
    (h : kv ∈ parse_cli_arguments argv options) : kv.2 ≠ [] := by
  unfold parse_cli_arguments at h
  split at h
  · simp at h
  · unfold get_dict_with_set_values_of_options at h
    obtain ⟨a, ha, hf⟩ := List.mem_filterMap.mp h
    cases hv : a.2 with
    | none => rw [hv] at hf; simp at hf
    | some v =>
        rw [hv] at hf
        by_cases he : v.isEmpty
        · simp [he] at hf
        · simp [he] at hf
          rw [← hf]
          intro hnil
          simp at hnil
          rw [hnil] at he
          simp at he

theorem parse_properties_file_no_empty (fs : FileSystem) (ini : IniParser) (dir : Str)
    (d : List (Str × Str)) (h : parse_properties_file fs ini dir = .ok d) :
    ∀ kv ∈ d, kv.2 ≠ [] := by
  intro kv hkv
  unfold parse_properties_file at h
  split at h
  · injection h with h
    rw [← h] at hkv
    simp at hkv
  · exact absurd h (by simp)
  · split at h
    · exact absurd h (by simp)
    · injection h with h
      rw [← h] at hkv
      exact mem_get_dict_with_set_values _ kv hkv

/-- C2: refuted — the environment snapshot is stored unfiltered by
`__init__`, so a constructed provider can hold a source with a key mapped to
the empty string. -/
theorem c2_counterexample :
    ∃ cp, ConfigProvider.init [[]] [] (fun _ => .notFound) (fun _ => .ok [])
        [("FOO".data, [])] "/home/user".data = .ok cp ∧
      ∃ source ∈ cp.configuration, ∃ kv ∈ source.2, kv.2 = [] := by
  refine ⟨⟨[("Command line arguments".data, []), ("Local properties file".data, []),
    ("Environment variables".data, [("FOO".data, [])]),
    ("System-wide properties file".data, [])]⟩, rfl, ?_⟩
  exact ⟨("Environment variables".data, [("FOO".data, [])]), by simp,
    ("FOO".data, []), by simp, rfl⟩

/-- C2 amended: in a constructed provider, the command-line source and both
properties-file sources contain no key mapped to the empty string;
the environment snapshot is stored verbatim and is exempt from this
invariant. -/
theorem c2_filtered_sources_have_no_empty_values (argv : List Str) (options : OptionsDict)
    (fs : FileSystem) (ini : IniParser) (env : List (Str × Str)) (home : Str)
    (cp : ConfigProvider)
    (hinit : ConfigProvider.init argv options fs ini env home = .ok cp) :
    ∀ source ∈ cp.configuration, source.1 ≠ "Environment variables".data →
      ∀ kv ∈ source.2, kv.2 ≠ [] := by
  obtain ⟨lp, hp, h1, h2, hconf⟩ := init_configuration argv options fs ini env home cp hinit
  intro source hs hne kv hkv
  rw [hconf] at hs
  simp only [List.mem_cons, List.not_mem_nil, or_false] at hs
  rcases hs with hs | hs | hs | hs
  · subst hs; exact mem_parse_cli_arguments argv options kv hkv
  · subst hs; exact parse_properties_file_no_empty fs ini ".".data lp h1 kv hkv
  · subst hs; exact absurd rfl hne
  · subst hs; exact parse_properties_file_no_empty fs ini (path_join home ".bitmovin".data) hp
      h2 kv hkv

theorem c2_amended_witness : (("K".data, "cli".data) : Str × Str).2 ≠ [] :=
  c2_filtered_sources_have_no_empty_values ["p".data, "-x".data] [("K".data, some "cli".data)]
    (fun _ => .notFound) (fun _ => .ok []) [] "/root".data
    ⟨[("Command line arguments".data, [("K".data, "cli".data)]),
      ("Local properties file".data, []), ("Environment variables".data, []),
      ("System-wide properties file".data, [])]⟩ rfl
    ("Command line arguments".data, [("K".data, "cli".data)]) (by simp) (by decide)
    ("K".data, "cli".data) (by simp)

theorem mem_of_lookup_eq_some (d : List (Str × Str)) (k v : Str)
    (h : d.lookup k = some v) : (k, v) ∈ d := by
  induction d with
  | nil => simp [List.lookup] at h
  | cons hd tl ih =>
      obtain ⟨k1, v1⟩ := hd
      by_cases hk : k = k1
      · subst hk
        simp [List.lookup] at h
        simp [h]
      · have hbeq : (k == k1) = false := by simpa using hk
        rw [List.lookup, hbeq] at h
        exact List.mem_cons_of_mem _ (ih h)

/-- C3: refuted — with the environment snapshot holding the key with an empty
string and the home properties file holding it with a non-empty value, the
lookup returns the empty string instead of continuing to the lower-priority
source. -/
theorem c3_counterexample :
    ∃ cp, ConfigProvider.init [[]] []
        (fun p => if p = path_join (path_join "/home/user".data ".bitmovin".data)
            "examples.properties".data then
          .content "HTTP_INPUT_HOST=example.com".data else .notFound)
        (fun _ => .ok [("HTTP_INPUT_HOST".data, "example.com".data)])
        [("HTTP_INPUT_HOST".data, [])] "/home/user".data = .ok cp ∧
      get_or_throw_exception cp "HTTP_INPUT_HOST".data = .ok [] ∧
      ("System-wide properties file".data,
        [("HTTP_INPUT_HOST".data, "example.com".data)]) ∈ cp.configuration := by
  refine ⟨⟨[("Command line arguments".data, []), ("Local properties file".data, []),
    ("Environment variables".data, [("HTTP_INPUT_HOST".data, [])]),
    ("System-wide properties file".data,
      [("HTTP_INPUT_HOST".data, "example.com".data)])]⟩, rfl, rfl, by simp⟩

/-- C3 amended: the lookup returns the value of the first source whose stored
mapping contains the key at all; the command-line and properties-file
mappings never store an empty value (an empty raw entry there is filtered out
during parsing, so fallback continues past it), while an empty environment
value is returned as-is. -/
theorem c3_first_source_with_key_wins (argv : List Str) (options : OptionsDict)
    (fs : FileSystem) (ini : IniParser) (env : List (Str × Str)) (home : Str)
    (cp : ConfigProvider) (key : Str)
    (hinit : ConfigProvider.init argv options fs ini env home = .ok cp) :
    (∀ pre s post v, cp.configuration = pre ++ s :: post →
        (∀ t ∈ pre, t.2.lookup key = none) → s.2.lookup key = some v →
        get_or_throw_exception cp key = .ok v)
  ∧ (∀ source ∈ cp.configuration, source.1 ≠ "Environment variables".data →
        source.2.lookup key ≠ some []) := by
  constructor
  · intro pre s post v hconf hpre hs
    unfold get_or_throw_exception
    rw [hconf, lookup_sources_append_none pre (s :: post) key hpre]
    simp [lookup_sources, hs]
  · intro source hmem hne hlook
    obtain ⟨lp, hp, h1, h2, hconf⟩ := init_configuration argv options fs ini env home cp hinit
    have hkv : (key, ([] : Str)) ∈ source.2 := mem_of_lookup_eq_some source.2 key [] hlook
    rw [hconf] at hmem
    simp only [List.mem_cons, List.not_mem_nil, or_false] at hmem
    rcases hmem with hm | hm | hm | hm
    · subst hm; exact mem_parse_cli_arguments argv options _ hkv rfl
    · subst hm; exact parse_properties_file_no_empty fs ini ".".data lp h1 _ hkv rfl
    · subst hm; exact absurd rfl hne
    · subst hm
      exact parse_properties_file_no_empty fs ini (path_join home ".bitmovin".data) hp h2 _
        hkv rfl

theorem c3_amended_witness :
    get_or_throw_exception
      ⟨[("Command line arguments".data, []), ("Local properties file".data, []),
        ("Environment variables".data, [("HOSTX".data, "example.com".data)]),
        ("System-wide properties file".data, [])]⟩ "HOSTX".data = .ok "example.com".data :=
  (c3_first_source_with_key_wins [[]] [] (fun _ => .notFound) (fun _ => .ok [])
    [("HOSTX".data, "example.com".data)] "/h".data
    ⟨[("Command line arguments".data, []), ("Local properties file".data, []),
      ("Environment variables".data, [("HOSTX".data, "example.com".data)]),
      ("System-wide properties file".data, [])]⟩ "HOSTX".data rfl).1
    [("Command line arguments".data, []), ("Local properties file".data, [])]
    ("Environment variables".data, [("HOSTX".data, "example.com".data)])
    [("System-wide properties file".data, [])] "example.com".data
    rfl (by decide) rfl

theorem startswith_slash_cons (c : Char) (t : Str) :
    startswith (c :: t) ['/'] = ('/' == c) := by
  simp [startswith, List.isPrefixOf]

theorem startswith_dslash_cons (t : Str) :
    startswith ('/' :: t) ['/', '/'] = startswith t ['/'] := by
  simp [startswith, List.isPrefixOf]

theorem endswith_append_slash (s : Str) : endswith (s ++ ['/']) ['/'] = true := by
  unfold endswith
  rw [List.isSuffixOf_iff_suffix]
  exact List.suffix_append s ['/']

theorem append_trailing_slash_ends (v : Str) :
    endswith (append_trailing_slash v) "/".data = true := by
  unfold append_trailing_slash
  by_cases h : endswith v "/".data
  · simp [h]
  · simp [h]
    exact endswith_append_slash v

theorem normalize_ends_with_slash (v : Str) :
    endswith (normalize_s3_output_base_path v) "/".data = true := by
  unfold normalize_s3_output_base_path
  exact append_trailing_slash_ends _

theorem normalize_fixed (w : Str) (h1 : startswith w ['/'] = false)
    (h2 : endswith w ['/'] = true) : normalize_s3_output_base_path w = w := by
  simp [normalize_s3_output_base_path, strip_single_leading_slash, append_trailing_slash,
    h1, h2]

theorem normalize_append_fixed (t : Str) (h : startswith t ['/'] = false) :
    normalize_s3_output_base_path (append_trailing_slash t) = append_trailing_slash t := by
  cases t with
  | nil => decide
  | cons d u =>
      have hd : ('/' == d) = false := by rw [← startswith_slash_cons d u]; exact h
      apply normalize_fixed
      · unfold append_trailing_slash
        by_cases he : endswith (d :: u) "/".data
        · simp [he]
          rw [startswith_slash_cons]
          exact hd
        · simp [he]
          rw [startswith_slash_cons]
          exact hd
      · exact append_trailing_slash_ends _

/-- C5: the accessor returns the looked-up value with a single leading slash
stripped and exactly one trailing slash guaranteed; in particular
"/my/outputs" yields "my/outputs/". The transformation applies only to a found
value: a lookup failure propagates unchanged. -/
theorem c5_s3_accessor_normalizes (cp : ConfigProvider) :
    (∀ v, get_or_throw_exception cp "S3_OUTPUT_BASE_PATH".data = .ok v →
        get_s3_output_base_path cp = .ok (normalize_s3_output_base_path v))
  ∧ (∀ e, get_or_throw_exception cp "S3_OUTPUT_BASE_PATH".data = .error e →
        get_s3_output_base_path cp = .error e)
  ∧ normalize_s3_output_base_path "/my/outputs".data = "my/outputs/".data := by
  refine ⟨?_, ?_, by decide⟩
  · intro v h
    unfold get_s3_output_base_path
    rw [h]
    rfl
  · intro e h
    unfold get_s3_output_base_path
    rw [h]

theorem c5_witness :
    get_s3_output_base_path
      ⟨[("Command line arguments".data, [("S3_OUTPUT_BASE_PATH".data, "/my/outputs".data)]),
        ("Local properties file".data, []), ("Environment variables".data, []),
        ("System-wide properties file".data, [])]⟩ = .ok "my/outputs/".data :=
  (c5_s3_accessor_normalizes
    ⟨[("Command line arguments".data, [("S3_OUTPUT_BASE_PATH".data, "/my/outputs".data)]),
      ("Local properties file".data, []), ("Environment variables".data, []),
      ("System-wide properties file".data, [])]⟩).1 "/my/outputs".data rfl

/-- C6: refuted — the normalization is not idempotent on every string: the
value "//tmp" normalizes to "/tmp/", which normalizes again to "tmp/". -/
theorem c6_counterexample :
    normalize_s3_output_base_path (normalize_s3_output_base_path "//tmp".data) ≠
      normalize_s3_output_base_path "//tmp".data := by decide

/-- C6 amended: the normalization is idempotent on every string that does not
begin with two slashes; in particular "outputs/" stays "outputs/", "/outputs"
and "outputs" and "/outputs/" all normalize to "outputs/". -/
theorem c6_idempotent_unless_double_slash :
    (∀ v, startswith v "//".data = false →
      normalize_s3_output_base_path (normalize_s3_output_base_path v) =
        normalize_s3_output_base_path v)
  ∧ normalize_s3_output_base_path "outputs/".data = "outputs/".data
  ∧ normalize_s3_output_base_path "/outputs".data = "outputs/".data
  ∧ normalize_s3_output_base_path "outputs".data = "outputs/".data
  ∧ normalize_s3_output_base_path "/outputs/".data = "outputs/".data := by
  refine ⟨?_, by decide, by decide, by decide, by decide⟩
  intro v h
  cases v with
  | nil => decide
  | cons c t =>
      by_cases hc : c = '/'
      · subst hc
        have ht : startswith t ['/'] = false := by
          rw [← startswith_dslash_cons t]; exact h
        have hn : normalize_s3_output_base_path ('/' :: t) = append_trailing_slash t := by
          simp [normalize_s3_output_base_path, strip_single_leading_slash,
            startswith_slash_cons]
        rw [hn]
        exact normalize_append_fixed t ht
      · have hd : ('/' == c) = false := by
          simp only [beq_eq_false_iff_ne, ne_eq]
          exact fun hh => hc hh.symm
        have hsw : startswith (c :: t) ['/'] = false := by
          rw [startswith_slash_cons]; exact hd
        have hn : normalize_s3_output_base_path (c :: t) =
            append_trailing_slash (c :: t) := by
          simp [normalize_s3_output_base_path, strip_single_leading_slash, hsw]
        rw [hn]
        exact normalize_append_fixed (c :: t) hsw

theorem c6_witness :
    normalize_s3_output_base_path (normalize_s3_output_base_path "/outputs".data) =
      normalize_s3_output_base_path "/outputs".data :=
  c6_idempotent_unless_double_slash.1 "/outputs".data (by decide)

/-- C10: whenever the S3 base-path key resolves to any string, including the
empty string and "/", the accessor's result ends with a slash; both "" and "/"
normalize to "/". -/
theorem c10_result_ends_with_slash (cp : ConfigProvider) (v : Str)
    (h : get_or_throw_exception cp "S3_OUTPUT_BASE_PATH".data = .ok v) :
    (∃ r, get_s3_output_base_path cp = .ok r ∧ endswith r "/".data = true)
  ∧ normalize_s3_output_base_path [] = "/".data
  ∧ normalize_s3_output_base_path "/".data = "/".data := by
  refine ⟨⟨normalize_s3_output_base_path v, ?_, normalize_ends_with_slash v⟩,
    by decide, by decide⟩
  unfold get_s3_output_base_path
  rw [h]
  rfl

theorem c10_witness :
    ((∃ r, get_s3_output_base_path
        ⟨[("Command line arguments".data, []), ("Local properties file".data, []),
          ("Environment variables".data, [("S3_OUTPUT_BASE_PATH".data, [])]),
          ("System-wide properties file".data, [])]⟩ = .ok r ∧
        endswith r "/".data = true)
    ∧ normalize_s3_output_base_path [] = "/".data
    ∧ normalize_s3_output_base_path "/".data = "/".data) :=
  c10_result_ends_with_slash
    ⟨[("Command line arguments".data, []), ("Local properties file".data, []),
      ("Environment variables".data, [("S3_OUTPUT_BASE_PATH".data, [])]),
      ("System-wide properties file".data, [])]⟩ [] rfl

/-- Process state outside the resolver: the mutable environment block. -/
structure World where
  env : List (Str × Str)

/-- Python dict assignment `environ[k] = v`: overwrite the entry when the key
is present, append it otherwise. -/
def dict_set (d : List (Str × Str)) (k v : Str) : List (Str × Str) :=
  if (d.lookup k).isSome then d.map (fun kv => if kv.1 == k then (kv.1, v) else kv)
  else d ++ [(k, v)]

/-- An environment mutation `environ[k] = v` performed after construction. -/
def setenv (w : World) (k v : Str) : World := ⟨dict_set w.env k v⟩

def apply_mutations (w : World) (muts : List (Str × Str)) : World :=
  muts.foldl (fun w m => setenv w m.1 m.2) w

/-- Scenario for the snapshot property: construct the provider from the
world's environment (`environ.copy()`), mutate the process environment, then
run a lookup; the lookup consults only the provider's stored configuration. -/
def lookup_after_mutations (argv : List Str) (options : OptionsDict) (fs : FileSystem)
    (ini : IniParser) (home : Str) (w : World) (muts : List (Str × Str)) (key : Str) :
    Except PError (Except PError Str) :=
  match ConfigProvider.init argv options fs ini w.env home with
  | .error e => .error e
  | .ok cp =>
      let _mutated := apply_mutations w muts
      .ok (get_or_throw_exception cp key)

/-- C9: the environment source is a by-value snapshot taken at construction
time. Any sequence of environment mutations performed after construction
leaves every later lookup result unchanged, and the constructed provider
stores exactly the construction-time environment. -/
theorem c9_env_snapshot (argv : List Str) (options : OptionsDict) (fs : FileSystem)
    (ini : IniParser) (home : Str) (w : World) (muts : List (Str × Str)) (key : Str) :
    (lookup_after_mutations argv options fs ini home w muts key =
      lookup_after_mutations argv options fs ini home w [] key)
  ∧ (∀ cp, ConfigProvider.init argv options fs ini w.env home = .ok cp →
      ("Environment variables".data, w.env) ∈ cp.configuration) := by
  refine ⟨rfl, ?_⟩
  intro cp hinit
  obtain ⟨lp, hp, h1, h2, hconf⟩ := init_configuration argv options fs ini w.env home cp hinit
  rw [hconf]
  simp

theorem c9_witness :
    ("Environment variables".data, [("A".data, "b".data)]) ∈
      (ConfigProvider.mk
        [("Command line arguments".data, []), ("Local properties file".data, []),
         ("Environment variables".data, [("A".data, "b".data)]),
         ("System-wide properties file".data, [])]).configuration :=
  (c9_env_snapshot [[]] [] (fun _ => .notFound) (fun _ => .ok []) "/h".data
    ⟨[("A".data, "b".data)]⟩ [("A".data, "c".data)] "A".data).2
    (ConfigProvider.mk
      [("Command line arguments".data, []), ("Local properties file".data, []),
       ("Environment variables".data, [("A".data, "b".data)]),
       ("System-wide properties file".data, [])]) rfl

end BitmovinConfig
